import Mathlib

/-!
# Verification of the diary Schedule renderer

Shallow embedding of `src/js/src/components/pages/diary/Schedule.jsx`:
the tree-walking dispatcher that turns a nested, tagged JSON tree into a
presentation tree (`Schedule`, `childrenFromRest`, `TopLevelPaper`,
`Header`, `Field`), together with a model of the `setIds` id-assignment
pre-pass (imported from `../../functions`, not part of this source tree,
so modelled from the spec).

JavaScript values are embedded as follows: the JSON input is either an
array (`JsTree.arr`) or a keyed record (`JsTree.obj`) whose possibly
missing properties are `Option`s; React elements are the inductive
`Elem`, with one constructor per presentation primitive or external
collaborator component, and `Elem.keyed` recording a `key={...}` prop.
A `TypeError` that JavaScript would throw on malformed input (for
instance destructuring a non-array) is the element `Elem.jsError`.
-/

namespace Diary

/-- A JSON record node: a HeadNode `(tag, value, id)` or a FieldNode
`(type, tag?, value, id)`.  Properties absent in the JavaScript object
are `none`. -/
structure JsObj where
  type : Option String := none
  tag : Option String := none
  value : Option String := none
  id : Option Nat := none
deriving Repr

/-- A JSON tree: either a keyed record or an array.  `Array.isArray` is
the structural discriminant used by the dispatcher.  Arrays also carry
an `id` property, since `setIds` stamps ids on every node and the
renderer reads `row.id` on array rows for React keys. -/
inductive JsTree where
  | obj (o : JsObj)
  | arr (id : Option Nat) (elems : List JsTree)
deriving Repr

/-- `row.id` as read by the renderer for React keys. -/
def rowId : JsTree → Option Nat
  | .obj o => o.id
  | .arr i _ => i

/-- `head.tag` where `head` may be any JSON value: property access on an
array yields `undefined` (`none`). -/
def jsTag : JsTree → Option String
  | .obj o => o.tag
  | .arr _ _ => none

/-- `head.value` where `head` may be any JSON value. -/
def jsValue : JsTree → Option String
  | .obj o => o.value
  | .arr _ _ => none

/-- `JSON.stringify` of a record node, with properties in the fixed
order `type, tag, value, id`; `undefined` properties are omitted, as
`JSON.stringify` omits them. -/
def stringifyObj (o : JsObj) : String :=
  let fs :=
    (match o.type with
     | some t => ["\"type\":\"" ++ t ++ "\""]
     | none => [])
    ++ (match o.tag with
        | some t => ["\"tag\":\"" ++ t ++ "\""]
        | none => [])
    ++ (match o.value with
        | some v => ["\"value\":\"" ++ v ++ "\""]
        | none => [])
    ++ (match o.id with
        | some n => ["\"id\":" ++ toString n]
        | none => [])
  "\x7b" ++ String.intercalate "," fs ++ "\x7d"

/-- The presentation tree produced by one render pass.  Each constructor
is a presentation primitive of the source (`ColumnList`, `ColumnCard`,
`Break`, `Grid`, `Typography`, `LinkButton`, `Text`, `Loading`, a React
fragment) or an opaque external collaborator (`SummaryField`,
`ShrimpField`, `JupyterActivity`, `JupyterAllActivities`) applied to its
structural payload.  `keyed k e` is `e` rendered with `key={k}`;
`jsError` marks a point where JavaScript would throw a `TypeError`. -/
inductive Elem where
  | loading
  | jsError
  | columnList (children : List Elem)
  | columnCard (header : Option String) (children : List Elem)
  | brk
  | grid (children : List Elem)
  | typography (variant : String) (label : Option String)
  | linkButton (href : String) (children : List Elem)
  | text (s : String)
  | summaryField (json : JsObj)
  | shrimpField (json : JsTree)
  | jupyterActivity (json : List JsTree)
  | jupyterAllActivities (json : JsObj)
  | fragment (children : List Elem)
  | keyed (key : Option Nat) (e : Elem)
deriving Repr

/-- The `Field` component: the leaf field renderer, dispatching on
`(json.type, json.tag)` exactly as the source's if/else chain. -/
def Field (json : JsObj) : Elem :=
  if json.type = some "value" then
    Elem.summaryField json
  else if json.type = some "link" then
    if json.tag = some "health" then
      Elem.linkButton "api/jupyter/health" [Elem.text (json.value.getD "")]
    else if json.tag = some "all-activities" then
      Elem.jupyterAllActivities json
    else
      Elem.grid [Elem.text ("Unsupported link: " ++ stringifyObj json)]
  else
    Elem.grid [Elem.text ("Unsupported type: " ++ stringifyObj json)]

mutual

/-- `childrenFromRest(head, rest, level)`: the subtree dispatcher.  For
each row of `rest`, in order: an array row under a `"shrimp"` head goes
to `ShrimpField`; any other array row emits a `Break` then a `Header`
at the current `level`; a record row goes to `Field`.  Each pushed
component carries `key={row.id}`. -/
def childrenFromRest (head : Option String) (rest : List JsTree) (level : Nat) :
    List Elem :=
  match rest with
  | [] => []
  | row :: rows =>
    (match row with
     | .arr i xs =>
       if head = some "shrimp" then
         [Elem.keyed i (Elem.shrimpField (.arr i xs))]
       else
         [Elem.brk, Elem.keyed i (Header (.arr i xs) level)]
     | .obj o => [Elem.keyed o.id (Field o)])
    ++ childrenFromRest head rows level

/-- The `Header` component (the section renderer): destructures
`[head, ...rest]`, renders a `Typography` heading of variant
`'h' + level`, and either delegates the whole `rest` to
`JupyterActivity` (when `head.tag === 'jupyter-activity'`) or
dispatches `rest` at `level + 1`.  Heading and children are siblings in
one fragment.  A non-array or empty-array `json` would make the
destructuring / `head.tag` access throw. -/
def Header (json : JsTree) (level : Nat) : Elem :=
  match json with
  | .arr _ (h :: rest) =>
    let children :=
      if jsTag h = some "jupyter-activity" then
        [Elem.jupyterActivity rest]
      else
        childrenFromRest (jsTag h) rest (level + 1)
    Elem.fragment
      (Elem.grid [Elem.typography ("h" ++ toString level) (jsValue h)] :: children)
  | _ => Elem.jsError

end

/-- The `TopLevelPaper` component: one top-level section, a
`ColumnCard` headed by `head.value` whose body is the dispatcher
applied to `rest` at level 3. -/
def TopLevelPaper (json : JsTree) : Elem :=
  match json with
  | .arr _ (h :: rest) =>
    Elem.columnCard (jsValue h) (childrenFromRest (jsTag h) rest 3)
  | _ => Elem.jsError

/-- An injective-style encoding of a node's position path into a `Nat`,
used by the modelled `setIds` to produce stable ids. -/
def pathId : List Nat → Nat
  | [] => 0
  | n :: p => Nat.pair n (pathId p) + 1

mutual

/-- Modelled from the spec: the id-assignment pre-pass (`setIds` from
`../../functions`, not part of this source tree).  Per §6 it mutates
every node in place to add a stable unique identifier and must not
change identifiers when re-run on an unchanged document; we model the
stable id of a node as determined by its position path from the root,
written onto the node (`path` is the reversed position path of the
parent, `idx` the node's index among its siblings). -/
def setIdTree (path : List Nat) (idx : Nat) : JsTree → JsTree
  | .obj o => .obj { o with id := some (pathId (idx :: path)) }
  | .arr _ xs => .arr (some (pathId (idx :: path))) (setIdList (idx :: path) 0 xs)

/-- Modelled from the spec: `setIdTree` mapped over a sibling list,
numbering consecutive indices from `idx`. -/
def setIdList (path : List Nat) (idx : Nat) : List JsTree → List JsTree
  | [] => []
  | t :: ts => setIdTree path idx t :: setIdList path (idx + 1) ts

end

/-- Modelled from the spec: `setIds(json)` on a loaded document (an
array of top-level rows). -/
def setIds (d : List JsTree) : List JsTree := setIdList [] 0 d

/-- The input of the `Schedule` component: the `json` prop is `null`
before data arrives, or could be left `undefined`, or is a loaded
document (an array of rows). -/
inductive ScheduleInput where
  | jsNull
  | jsUndefined
  | doc (d : List JsTree)
deriving Repr

/-- The loaded-document path of `Schedule` (the `else` branch): call
`setIds(json)` — which mutates the input, modelled by returning the
updated input alongside the output — then render
`json.slice(1).map(row => <TopLevelPaper json={row} key={row.id}/>)`
inside a `ColumnList`.  On `undefined` this branch throws
(`setIds`/`slice` on a non-array). -/
def loadedPath : ScheduleInput → ScheduleInput × Elem
  | .jsNull => (.jsNull, .jsError)
  | .jsUndefined => (.jsUndefined, .jsError)
  | .doc d =>
    let d' := setIds d
    (.doc d',
     Elem.columnList
       ((d'.drop 1).map (fun row => Elem.keyed (rowId row) (TopLevelPaper row))))

/-- The `Schedule` component: `if (json === null) return <Loading/>`,
otherwise the loaded path.  The first component of the result is the
`json` prop after the render pass (recording the in-place mutation done
by `setIds`); the second is the rendered element. -/
def Schedule (i : ScheduleInput) : ScheduleInput × Elem :=
  match i with
  | .jsNull => (.jsNull, .loading)
  | j => loadedPath j

mutual

/-- All sub-elements of a presentation element, the element itself
included, in preorder. -/
def collectE (e : Elem) : List Elem :=
  match e with
  | .columnList cs => .columnList cs :: collectL cs
  | .columnCard h cs => .columnCard h cs :: collectL cs
  | .grid cs => .grid cs :: collectL cs
  | .linkButton href cs => .linkButton href cs :: collectL cs
  | .fragment cs => .fragment cs :: collectL cs
  | .keyed k e2 => .keyed k e2 :: collectE e2
  | x => [x]

/-- `collectE` over a child list. -/
def collectL : List Elem → List Elem
  | [] => []
  | c :: cs => collectE c ++ collectL cs

end

/-- Is this element the visual separator `Break`? -/
def isBrk : Elem → Bool
  | .brk => true
  | _ => false

/-- Is this element a `Typography` heading? -/
def isTypography : Elem → Bool
  | .typography _ _ => true
  | _ => false

/-- Is this element a delegation to the `JupyterActivity` external
renderer? -/
def isJupyterActivity : Elem → Bool
  | .jupyterActivity _ => true
  | _ => false

/-- Is this element a delegation to the `SummaryField` external
renderer? -/
def isSummaryField : Elem → Bool
  | .summaryField _ => true
  | _ => false

/-! ## Unfolding lemmas for the mutually recursive dispatcher -/

@[simp]
theorem childrenFromRest_nil (head : Option String) (level : Nat) :
    childrenFromRest head [] level = [] := by
  rw [childrenFromRest.eq_def]

@[simp]
theorem childrenFromRest_cons_obj (head : Option String) (o : JsObj)
    (rows : List JsTree) (level : Nat) :
    childrenFromRest head (.obj o :: rows) level
      = Elem.keyed o.id (Field o) :: childrenFromRest head rows level := by
  rw [childrenFromRest.eq_def]
  rfl

@[simp]
theorem childrenFromRest_cons_shrimp (i : Option Nat) (xs rows : List JsTree)
    (level : Nat) :
    childrenFromRest (some "shrimp") (.arr i xs :: rows) level
      = Elem.keyed i (Elem.shrimpField (.arr i xs))
        :: childrenFromRest (some "shrimp") rows level := by
  rw [childrenFromRest.eq_def]
  rfl

theorem childrenFromRest_cons_arr (head : Option String) (i : Option Nat)
    (xs rows : List JsTree) (level : Nat) (h : head ≠ some "shrimp") :
    childrenFromRest head (.arr i xs :: rows) level
      = Elem.brk :: Elem.keyed i (Header (.arr i xs) level)
        :: childrenFromRest head rows level := by
  rw [childrenFromRest.eq_def]
  simp only [if_neg h]
  rfl

@[simp]
theorem Header_arr (i : Option Nat) (h : JsTree) (rest : List JsTree)
    (level : Nat) :
    Header (.arr i (h :: rest)) level
      = Elem.fragment
          (Elem.grid [Elem.typography ("h" ++ toString level) (jsValue h)]
            :: (if jsTag h = some "jupyter-activity" then
                  [Elem.jupyterActivity rest]
                else
                  childrenFromRest (jsTag h) rest (level + 1))) := by
  rw [Header.eq_def]

/-- The dispatcher processes a concatenation of row lists as the
concatenation of the processed lists: it is a pointwise,
order-preserving map. -/
theorem childrenFromRest_append (head : Option String) (ys : List JsTree)
    (level : Nat) :
    ∀ xs, childrenFromRest head (xs ++ ys) level
      = childrenFromRest head xs level ++ childrenFromRest head ys level
  | [] => by simp
  | row :: rows => by
    have ih := childrenFromRest_append head ys level rows
    match row with
    | .obj o => simp [ih]
    | .arr i xs =>
      by_cases h : head = some "shrimp"
      · subst h; simp [ih]
      · simp [childrenFromRest_cons_arr _ _ _ _ _ h, ih]

/-! ## Lemmas about `collectE` / `collectL` -/

@[simp]
theorem collectL_nil : collectL [] = [] := by
  rw [collectL.eq_def]

@[simp]
theorem collectL_cons (c : Elem) (cs : List Elem) :
    collectL (c :: cs) = collectE c ++ collectL cs := by
  rw [collectL.eq_def]

@[simp]
theorem collectE_keyed (k : Option Nat) (e : Elem) :
    collectE (.keyed k e) = .keyed k e :: collectE e := by
  rw [collectE.eq_def]

@[simp]
theorem collectE_fragment (cs : List Elem) :
    collectE (.fragment cs) = .fragment cs :: collectL cs := by
  rw [collectE.eq_def]

@[simp]
theorem collectE_grid (cs : List Elem) :
    collectE (.grid cs) = .grid cs :: collectL cs := by
  rw [collectE.eq_def]

@[simp]
theorem collectE_columnList (cs : List Elem) :
    collectE (.columnList cs) = .columnList cs :: collectL cs := by
  rw [collectE.eq_def]

@[simp]
theorem collectE_columnCard (h : Option String) (cs : List Elem) :
    collectE (.columnCard h cs) = .columnCard h cs :: collectL cs := by
  rw [collectE.eq_def]

@[simp]
theorem collectE_linkButton (href : String) (cs : List Elem) :
    collectE (.linkButton href cs) = .linkButton href cs :: collectL cs := by
  rw [collectE.eq_def]

@[simp]
theorem collectE_shrimpField (j : JsTree) :
    collectE (.shrimpField j) = [.shrimpField j] := by
  rw [collectE.eq_def]

@[simp]
theorem collectE_summaryField (o : JsObj) :
    collectE (.summaryField o) = [.summaryField o] := by
  rw [collectE.eq_def]

@[simp]
theorem collectE_jupyterAllActivities (o : JsObj) :
    collectE (.jupyterAllActivities o) = [.jupyterAllActivities o] := by
  rw [collectE.eq_def]

@[simp]
theorem collectE_jupyterActivity (js : List JsTree) :
    collectE (.jupyterActivity js) = [.jupyterActivity js] := by
  rw [collectE.eq_def]

@[simp]
theorem collectE_text (s : String) : collectE (.text s) = [.text s] := by
  rw [collectE.eq_def]

@[simp]
theorem collectE_brk : collectE .brk = [.brk] := by
  rw [collectE.eq_def]

@[simp]
theorem collectE_loading : collectE .loading = [.loading] := by
  rw [collectE.eq_def]

@[simp]
theorem collectE_jsError : collectE .jsError = [.jsError] := by
  rw [collectE.eq_def]

@[simp]
theorem collectE_typography (v : String) (l : Option String) :
    collectE (.typography v l) = [.typography v l] := by
  rw [collectE.eq_def]

theorem collectL_append (ys : List Elem) :
    ∀ xs, collectL (xs ++ ys) = collectL xs ++ collectL ys
  | [] => by simp
  | c :: cs => by
    have ih := collectL_append ys cs
    simp [ih]

theorem mem_collectL_of_mem {x e : Elem} :
    ∀ {es : List Elem}, e ∈ es → x ∈ collectE e → x ∈ collectL es
  | [], he, _ => by cases he
  | c :: cs, he, hx => by
    rcases List.mem_cons.mp he with h | h
    · subst h
      simp only [collectL_cons]
      exact List.mem_append.mpr (Or.inl hx)
    · simp only [collectL_cons]
      exact List.mem_append.mpr (Or.inr (mem_collectL_of_mem h hx))

theorem mem_collectE_keyed {x : Elem} (k : Option Nat) {e : Elem}
    (hx : x ∈ collectE e) : x ∈ collectE (.keyed k e) := by
  simp only [collectE_keyed]
  exact List.mem_cons_of_mem _ hx

theorem mem_collectE_columnList {x c : Elem} {cs : List Elem} (hc : c ∈ cs)
    (hx : x ∈ collectE c) : x ∈ collectE (.columnList cs) := by
  simp only [collectE_columnList]
  exact List.mem_cons_of_mem _ (mem_collectL_of_mem hc hx)

theorem mem_collectE_columnCard {x c : Elem} (h : Option String)
    {cs : List Elem} (hc : c ∈ cs) (hx : x ∈ collectE c) :
    x ∈ collectE (.columnCard h cs) := by
  simp only [collectE_columnCard]
  exact List.mem_cons_of_mem _ (mem_collectL_of_mem hc hx)

theorem mem_collectE_fragment {x c : Elem} {cs : List Elem} (hc : c ∈ cs)
    (hx : x ∈ collectE c) : x ∈ collectE (.fragment cs) := by
  simp only [collectE_fragment]
  exact List.mem_cons_of_mem _ (mem_collectL_of_mem hc hx)

/-! ## Lemmas about the modelled `setIds` pre-pass -/

mutual

/-- Re-assigning ids overwrites whatever a previous assignment wrote:
the result depends only on the structure, not on the existing ids. -/
theorem setIdTree_overwrite (path : List Nat) (idx : Nat) (p2 : List Nat)
    (i2 : Nat) :
    ∀ t, setIdTree path idx (setIdTree p2 i2 t) = setIdTree path idx t
  | .obj o => by simp [setIdTree]
  | .arr j xs => by
    simp [setIdTree, setIdList_overwrite (idx :: path) 0 (i2 :: p2) 0 xs]

/-- List version of `setIdTree_overwrite`. -/
theorem setIdList_overwrite (path : List Nat) (idx : Nat) (p2 : List Nat)
    (i2 : Nat) :
    ∀ ts, setIdList path idx (setIdList p2 i2 ts) = setIdList path idx ts
  | [] => rfl
  | t :: ts => by
    simp [setIdList, setIdTree_overwrite path idx p2 i2 t,
      setIdList_overwrite path (idx + 1) p2 (i2 + 1) ts]

end

/-- The modelled pre-pass is idempotent, as the spec requires of
`setIds`. -/
theorem setIds_idem (d : List JsTree) : setIds (setIds d) = setIds d :=
  setIdList_overwrite [] 0 [] 0 d

mutual

/-- A tree with all ids removed: the id-free shape of a tree.  Two
trees with the same `eraseIdTree` image have the same nodes with the
same `type`/`tag`/`value` content in the same arrangement, differing at
most in ids. -/
def eraseIdTree : JsTree → JsTree
  | .obj o => .obj { o with id := none }
  | .arr _ xs => .arr none (eraseIdList xs)

/-- `eraseIdTree` over a sibling list. -/
def eraseIdList : List JsTree → List JsTree
  | [] => []
  | t :: ts => eraseIdTree t :: eraseIdList ts

end

mutual

/-- The modelled `setIds` changes only ids: it preserves the id-free
shape of the tree, so it creates and destroys no node and touches no
`type`/`tag`/`value` content. -/
theorem eraseIdTree_setIdTree (path : List Nat) (idx : Nat) :
    ∀ t, eraseIdTree (setIdTree path idx t) = eraseIdTree t
  | .obj o => by simp [setIdTree, eraseIdTree]
  | .arr j xs => by
    simp [setIdTree, eraseIdTree, eraseIdList_setIdList (idx :: path) 0 xs]

/-- List version of `eraseIdTree_setIdTree`. -/
theorem eraseIdList_setIdList (path : List Nat) (idx : Nat) :
    ∀ ts, eraseIdList (setIdList path idx ts) = eraseIdList ts
  | [] => rfl
  | t :: ts => by
    simp [setIdList, eraseIdList, eraseIdTree_setIdTree path idx t,
      eraseIdList_setIdList path (idx + 1) ts]

end

/-! ## The claims -/

/-- C1, counterexample: the render pass does mutate its input.  On the
document `[{tag:"a"}]`, whose single node carries no id yet, `Schedule`
invokes the `setIds` pre-pass, which stamps an id onto the node: the
document after rendering differs from the document before. -/
theorem schedule_mutates_input_cx :
    (Schedule (.doc [JsTree.obj { tag := some "a" }])).1
      ≠ ScheduleInput.doc [JsTree.obj { tag := some "a" }] := by
  simp [Schedule, loadedPath, setIds, setIdList, setIdTree, pathId, Nat.pair]

/-- C1 (amended): rendering mutates its input only through the
`setIds` id-assignment pre-pass that `Schedule` invokes before walking
the tree.  That pre-pass changes only ids — it creates and destroys no
node and alters no `type`/`tag`/`value` content (first conjunct) — and
on a document whose ids are already the assigned ones it changes
nothing at all, so the render pass proper has no side effect beyond
producing the presentation tree (second conjunct). -/
theorem schedule_pure_modulo_ids (d : List JsTree) :
    eraseIdList (setIds d) = eraseIdList d
      ∧ (setIds d = d → (Schedule (.doc d)).1 = .doc d) := by
  constructor
  · exact eraseIdList_setIdList [] 0 d
  · intro h
    simp [Schedule, loadedPath, h]

/-- C1, witness: on the already-identified document `[[]]` (a single
empty top-level array that `setIds` leaves unchanged), rendering leaves
the input untouched. -/
theorem schedule_pure_modulo_ids_witness :
    eraseIdList (setIds [JsTree.arr (some 1) []])
        = eraseIdList [JsTree.arr (some 1) []]
      ∧ (Schedule (.doc [JsTree.arr (some 1) []])).1
        = .doc [JsTree.arr (some 1) []] :=
  ⟨(schedule_pure_modulo_ids [JsTree.arr (some 1) []]).1,
   (schedule_pure_modulo_ids [JsTree.arr (some 1) []]).2
     (by simp [setIds, setIdList, setIdTree, pathId, Nat.pair])⟩

/-- C9 (confirmed): rendering is deterministic and idempotent.  With
the in-place mutation of `setIds` made explicit in the state, rendering
the document left behind by a first render produces structurally
identical output: the only state the pass touches are the ids, and
re-assigning them is idempotent. -/
theorem render_idempotent (i : ScheduleInput) :
    (Schedule (Schedule i).1).2 = (Schedule i).2 := by
  match i with
  | .jsNull => rfl
  | .jsUndefined => rfl
  | .doc d => simp [Schedule, loadedPath, setIds_idem]

/-- C10 (confirmed): the not-yet-loaded short-circuit fires exactly
when the input is the strict `null` value — `Schedule` yields the
`Loading` placeholder iff the input is `null` — and every other input,
`undefined` included, is handed to the normal loaded-document path. -/
theorem loading_iff_null :
    (∀ i : ScheduleInput, (Schedule i).2 = .loading ↔ i = .jsNull)
      ∧ (∀ i : ScheduleInput, i ≠ .jsNull → Schedule i = loadedPath i) := by
  constructor
  · intro i
    match i with
    | .jsNull => simp [Schedule]
    | .jsUndefined => simp [Schedule, loadedPath]
    | .doc d => simp [Schedule, loadedPath]
  · intro i hi
    match i with
    | .jsNull => exact absurd rfl hi
    | .jsUndefined => rfl
    | .doc d => rfl

/-- C10, witness: `Schedule null` is the loading placeholder, and
`Schedule undefined` goes down the loaded path. -/
theorem loading_iff_null_witness :
    (Schedule .jsNull).2 = .loading
      ∧ Schedule .jsUndefined = loadedPath .jsUndefined :=
  ⟨(loading_iff_null.1 .jsNull).mpr rfl,
   loading_iff_null.2 .jsUndefined (by simp)⟩

/-- C6 (confirmed): a field of type `"link"` tagged `"health"` renders
an action control targeting the fixed endpoint `api/jupyter/health`,
labeled with the field's `value`. -/
theorem field_health_link (f : JsObj) (ht : f.type = some "link")
    (hg : f.tag = some "health") :
    Field f = Elem.linkButton "api/jupyter/health"
      [Elem.text (f.value.getD "")] := by
  simp [Field, ht, hg]

/-- C6, witness: `{type:"link", tag:"health", value:"OK"}` renders a
control labeled `"OK"` targeting `api/jupyter/health`. -/
theorem field_health_link_witness :
    Field { type := some "link", tag := some "health", value := some "OK" }
      = Elem.linkButton "api/jupyter/health" [Elem.text "OK"] := by
  have h := field_health_link
    { type := some "link", tag := some "health", value := some "OK" } rfl rfl
  simpa using h

/-- C7 (confirmed): a field matching no dispatch rule degrades to an
inline diagnostic and nothing more.  A `"link"` field with an
unrecognized tag renders `"Unsupported link: "` plus a structural dump
of the field; a field with an unrecognized type renders
`"Unsupported type: "` plus the dump; `Field` never produces the
element standing for a thrown error; and a field in the middle of a
row list leaves the rendering of the rows before and after it
untouched. -/
theorem field_fallback :
    (∀ f : JsObj, f.type = some "link" → f.tag ≠ some "health" →
      f.tag ≠ some "all-activities" →
      Field f = Elem.grid [Elem.text ("Unsupported link: " ++ stringifyObj f)])
    ∧ (∀ f : JsObj, f.type ≠ some "value" → f.type ≠ some "link" →
      Field f = Elem.grid [Elem.text ("Unsupported type: " ++ stringifyObj f)])
    ∧ (∀ f : JsObj, Field f ≠ Elem.jsError)
    ∧ (∀ (head : Option String) (pre post : List JsTree) (o : JsObj)
        (level : Nat),
        childrenFromRest head (pre ++ JsTree.obj o :: post) level
          = childrenFromRest head pre level
            ++ Elem.keyed o.id (Field o) :: childrenFromRest head post level) := by
  refine ⟨?_, ?_, ?_, ?_⟩
  · intro f h1 h2 h3
    simp [Field, h1, h2, h3]
  · intro f h1 h2
    simp [Field, h1, h2]
  · intro f
    unfold Field
    split_ifs <;> simp
  · intro head pre post o level
    rw [childrenFromRest_append]
    simp

/-- C7, witness: `{type:"link", tag:"unknown-tag"}` and
`{type:"other"}` degrade to their diagnostics, neither is a thrown
error, and a fallback field sitting between two rows leaves both
rendered. -/
theorem field_fallback_witness :
    Field { type := some "link", tag := some "unknown-tag" }
      = Elem.grid [Elem.text ("Unsupported link: "
          ++ stringifyObj { type := some "link", tag := some "unknown-tag" })]
    ∧ Field { type := some "other" }
      = Elem.grid [Elem.text ("Unsupported type: "
          ++ stringifyObj { type := some "other" })]
    ∧ Field { type := some "other" } ≠ Elem.jsError
    ∧ childrenFromRest none
        ([JsTree.obj { type := some "value" }]
          ++ JsTree.obj { type := some "other" }
            :: [JsTree.obj { type := some "value" }]) 3
      = childrenFromRest none [JsTree.obj { type := some "value" }] 3
        ++ Elem.keyed none (Field { type := some "other" })
          :: childrenFromRest none [JsTree.obj { type := some "value" }] 3 :=
  ⟨field_fallback.1 { type := some "link", tag := some "unknown-tag" } rfl
      (by simp) (by simp),
   field_fallback.2.1 { type := some "other" } (by simp) (by simp),
   field_fallback.2.2.1 { type := some "other" },
   field_fallback.2.2.2 none [JsTree.obj { type := some "value" }]
     [JsTree.obj { type := some "value" }] { type := some "other" } 3⟩

/-- The document used to refute C5: its (sole) top-level subtree is
headed by a `"jupyter-activity"` tag and contains one value field. -/
def jupyterTopDoc : List JsTree :=
  [JsTree.obj { value := some "date" },
   JsTree.arr none
     [JsTree.obj { tag := some "jupyter-activity", value := some "J" },
      JsTree.obj { type := some "value", value := some "v" }]]

/-- C5, counterexample: a top-level subtree tagged `"jupyter-activity"`
is not delegated to `JupyterActivity` — `TopLevelPaper` dispatches its
rest generically whatever the head tag, so the rendering of
`jupyterTopDoc` contains no `JupyterActivity` delegation at all, and
the value field inside the rest is individually dispatched to
`SummaryField`. -/
theorem jupyter_toplevel_cx :
    ((collectE (Schedule (.doc jupyterTopDoc)).2).any isJupyterActivity
        = false)
      ∧ ((collectE (Schedule (.doc jupyterTopDoc)).2).any isSummaryField
        = true) := by
  constructor <;>
    simp [Schedule, loadedPath, setIds, setIdList, setIdTree, pathId,
      Nat.pair, jupyterTopDoc, TopLevelPaper, Field, jsTag, jsValue, rowId,
      collectE, collectL, isJupyterActivity, isSummaryField]

/-- C5 (amended): for every subtree rendered through the section
renderer `Header` — that is, every nested, non-top-level subtree
reached by the generic dispatcher — a head tag `"jupyter-activity"`
causes the entire rest to be delegated as one opaque unit to the
`JupyterActivity` external renderer, the generic dispatcher never
inspecting the individual elements of that rest.  (A top-level subtree
with that tag is instead dispatched generically, as the counterexample
shows.) -/
theorem jupyter_section_opaque (i : Option Nat) (h : JsObj)
    (rest : List JsTree) (level : Nat)
    (htag : h.tag = some "jupyter-activity") :
    Header (.arr i (.obj h :: rest)) level
      = Elem.fragment
          [Elem.grid [Elem.typography ("h" ++ toString level) h.value],
           Elem.jupyterActivity rest] := by
  simp [Header_arr, jsTag, jsValue, htag]

/-- Leaf field renderings contain no separator and no heading: every
element of `Field`'s output is one of the leaf shapes of the field
dispatch table. -/
theorem collectE_Field_flat (o : JsObj) (e : Elem)
    (he : e ∈ collectE (Field o)) :
    isBrk e = false ∧ isTypography e = false := by
  unfold Field at he
  split_ifs at he <;>
    simp only [collectE_summaryField, collectE_linkButton,
      collectE_jupyterAllActivities, collectE_grid, collectL_cons,
      collectL_nil, collectE_text, List.mem_cons, List.mem_append,
      List.mem_singleton, List.not_mem_nil, or_false] at he <;>
    rcases he with rfl | rfl <;> simp [isBrk, isTypography]

/-- C4 (confirmed): under a parent whose head tag is `"shrimp"`, the
dispatcher emits no separator and no heading at all — every element of
its output, sub-elements included, is neither a `Break` nor a
`Typography` heading — and every Subtree child is routed to the
`ShrimpField` renderer, appearing in the output as exactly the keyed
`ShrimpField` delegation, bypassing the generic section renderer. -/
theorem shrimp_children (rest : List JsTree) (level : Nat) :
    (∀ e ∈ collectL (childrenFromRest (some "shrimp") rest level),
        isBrk e = false ∧ isTypography e = false)
      ∧ (∀ (i : Option Nat) (xs : List JsTree), JsTree.arr i xs ∈ rest →
          Elem.keyed i (Elem.shrimpField (JsTree.arr i xs))
            ∈ childrenFromRest (some "shrimp") rest level) := by
  induction rest with
  | nil => exact ⟨by simp, by simp⟩
  | cons row rows ih =>
    constructor
    · intro e he
      match row with
      | .obj o =>
        rw [childrenFromRest_cons_obj, collectL_cons, collectE_keyed] at he
        rcases List.mem_append.mp he with h | h
        · rcases List.mem_cons.mp h with rfl | h
          · simp [isBrk, isTypography]
          · exact collectE_Field_flat o e h
        · exact ih.1 e h
      | .arr i xs =>
        rw [childrenFromRest_cons_shrimp, collectL_cons, collectE_keyed,
          collectE_shrimpField] at he
        rcases List.mem_append.mp he with h | h
        · rcases List.mem_cons.mp h with rfl | h
          · simp [isBrk, isTypography]
          · rcases List.mem_singleton.mp h with rfl
            simp [isBrk, isTypography]
        · exact ih.1 e h
    · intro i xs hmem
      rcases List.mem_cons.mp hmem with rfl | h
      · rw [childrenFromRest_cons_shrimp]
        exact List.mem_cons_self _ _
      · match row with
        | .obj o =>
          rw [childrenFromRest_cons_obj]
          exact List.mem_cons_of_mem _ (ih.2 i xs h)
        | .arr j ys =>
          rw [childrenFromRest_cons_shrimp]
          exact List.mem_cons_of_mem _ (ih.2 i xs h)

/-- C4, witness: under a `"shrimp"` head, a subtree child is rendered
as its keyed `ShrimpField` delegation, and that element is neither a
separator nor a heading. -/
theorem shrimp_children_witness :
    (isBrk (Elem.keyed none (Elem.shrimpField (JsTree.arr none []))) = false
      ∧ isTypography
          (Elem.keyed none (Elem.shrimpField (JsTree.arr none []))) = false)
      ∧ Elem.keyed none (Elem.shrimpField (JsTree.arr none []))
        ∈ childrenFromRest (some "shrimp") [JsTree.arr none []] 3 := by
  refine ⟨(shrimp_children [JsTree.arr none []] 3).1 _ ?_,
    (shrimp_children [JsTree.arr none []] 3).2 none [] (by simp)⟩
  simp

/-- C5, witness: a nested `"jupyter-activity"` section with one field
child is rendered as its heading plus a single opaque
`JupyterActivity` delegation carrying the whole rest. -/
theorem jupyter_section_opaque_witness :
    Header (.arr none
        [JsTree.obj { tag := some "jupyter-activity", value := some "J" },
         JsTree.obj { type := some "value" }]) 3
      = Elem.fragment
          [Elem.grid [Elem.typography ("h" ++ toString 3) (some "J")],
           Elem.jupyterActivity [JsTree.obj { type := some "value" }]] :=
  jupyter_section_opaque none
    { tag := some "jupyter-activity", value := some "J" }
    [JsTree.obj { type := some "value" }] 3 rfl

/-- A one-section subtree used to refute the "depth+1" part of C8. -/
def plainSub : JsTree := .arr none [.obj { tag := some "s", value := some "S" }]

/-- C8, counterexample: the dispatcher invoked at depth 3 renders a
generic Subtree child's heading at depth 3, not 4: the output for one
generic subtree child contains the heading `h3` and no `h4`.  The
claim's "rendered via the Section Renderer at depth+1" — which per the
section-renderer contract would put this heading at level 4 — is false
of the code, which hands the current depth to `Header` unchanged. -/
theorem dispatcher_order_cx :
    Elem.typography "h4" (some "S")
        ∉ collectL (childrenFromRest (some "g") [plainSub] 3)
      ∧ Elem.typography "h3" (some "S")
        ∈ collectL (childrenFromRest (some "g") [plainSub] 3) := by
  constructor <;>
    simp [plainSub, childrenFromRest, Header, jsTag, jsValue, collectE,
      collectL] <;>
    decide

/-- C8 (amended): the dispatcher is a deterministic, order-preserving
map — it processes concatenations pointwise, in input order — and each
generic (non-shrimp, non-field) Subtree child is preceded by exactly
one separator and rendered via the section renderer `Header` at the
*current* depth; it is `Header` that then dispatches that child's own
children at depth+1. -/
theorem dispatcher_order (head : Option String) (level : Nat) :
    (∀ xs ys, childrenFromRest head (xs ++ ys) level
        = childrenFromRest head xs level ++ childrenFromRest head ys level)
      ∧ (∀ (i : Option Nat) (xs : List JsTree), head ≠ some "shrimp" →
          childrenFromRest head [JsTree.arr i xs] level
            = [Elem.brk, Elem.keyed i (Header (JsTree.arr i xs) level)])
      ∧ (∀ (i : Option Nat) (h : JsObj) (rest : List JsTree),
          h.tag ≠ some "jupyter-activity" →
          Header (.arr i (.obj h :: rest)) level
            = Elem.fragment
                (Elem.grid [Elem.typography ("h" ++ toString level) h.value]
                  :: childrenFromRest h.tag rest (level + 1))) := by
  refine ⟨fun xs ys => childrenFromRest_append head ys level xs, ?_, ?_⟩
  · intro i xs h
    rw [childrenFromRest_cons_arr _ _ _ _ _ h, childrenFromRest_nil]
  · intro i h rest htag
    simp [Header_arr, jsTag, jsValue, htag]

/-- C8, witness: concrete instances of the three conjuncts — pointwise
processing of a concatenation, one separator then a `Header` at the
current depth for a generic subtree child, and that `Header` renders
its heading at the given level while dispatching its rest one level
deeper. -/
theorem dispatcher_order_witness :
    childrenFromRest (some "g") ([JsTree.obj {}] ++ [JsTree.obj {}]) 3
        = childrenFromRest (some "g") [JsTree.obj {}] 3
          ++ childrenFromRest (some "g") [JsTree.obj {}] 3
      ∧ childrenFromRest (some "g")
          [JsTree.arr none [JsTree.obj { tag := some "s", value := some "S" }]] 3
        = [Elem.brk, Elem.keyed none
            (Header (JsTree.arr none
              [JsTree.obj { tag := some "s", value := some "S" }]) 3)]
      ∧ Header (.arr none
            (.obj { tag := some "s", value := some "S" } :: [])) 3
        = Elem.fragment
            (Elem.grid [Elem.typography ("h" ++ toString 3) (some "S")]
              :: childrenFromRest (some "s") [] (3 + 1)) :=
  ⟨(dispatcher_order (some "g") 3).1 [JsTree.obj {}] [JsTree.obj {}],
   (dispatcher_order (some "g") 3).2.1 none
     [JsTree.obj { tag := some "s", value := some "S" }] (by simp),
   (dispatcher_order (some "s") 3).2.2 none
     { tag := some "s", value := some "S" } [] (by simp)⟩

/-- The headers of the top-level containers in a rendered child list:
one entry per keyed `ColumnCard`, in order. -/
def topHeaders : List Elem → List (Option String)
  | [] => []
  | Elem.keyed _ (Elem.columnCard h _) :: es => h :: topHeaders es
  | _ :: es => topHeaders es

/-- The head value of a well-formed top-level row (an array whose
first element is a record); `none` when the row is malformed. -/
def rowHead : JsTree → Option (Option String)
  | .arr _ (.obj h :: _) => some h.value
  | _ => none

@[simp]
theorem rowId_arr (i : Option Nat) (xs : List JsTree) :
    rowId (.arr i xs) = i := rfl

@[simp]
theorem rowId_obj (o : JsObj) : rowId (.obj o) = o.id := rfl

@[simp]
theorem TopLevelPaper_arr_obj (j : Option Nat) (h : JsObj)
    (tl : List JsTree) :
    TopLevelPaper (.arr j (.obj h :: tl))
      = Elem.columnCard h.value (childrenFromRest h.tag tl 3) := rfl

@[simp]
theorem rowHead_arr_obj (j : Option Nat) (h : JsObj) (tl : List JsTree) :
    rowHead (.arr j (.obj h :: tl)) = some h.value := rfl

@[simp]
theorem topHeaders_cons_card (k : Option Nat) (h : Option String)
    (cs : List Elem) (es : List Elem) :
    topHeaders (Elem.keyed k (Elem.columnCard h cs) :: es)
      = h :: topHeaders es := rfl

/-- After id assignment, each well-formed top-level row maps to
exactly one keyed `ColumnCard` whose header is the row's head value,
in input order. -/
theorem topHeaders_setIdList (idx : Nat) :
    ∀ rest : List JsTree, (∀ r ∈ rest, (rowHead r).isSome) →
      topHeaders ((setIdList [] idx rest).map
          (fun row => Elem.keyed (rowId row) (TopLevelPaper row)))
        = rest.map (fun r => (rowHead r).getD none)
      ∧ ((setIdList [] idx rest).map
          (fun row => Elem.keyed (rowId row) (TopLevelPaper row))).length
        = rest.length
  | [], _ => by simp [setIdList, topHeaders]
  | r :: rs, hwf => by
    have hr := hwf r (List.mem_cons_self r rs)
    have ih := topHeaders_setIdList (idx + 1) rs
      (fun x hx => hwf x (List.mem_cons_of_mem r hx))
    rcases r with o | ⟨j, tl⟩
    · simp [rowHead] at hr
    rcases tl with _ | ⟨h0, tl⟩
    · simp [rowHead] at hr
    rcases h0 with h | ⟨j2, xs2⟩
    · simp only [setIdList, setIdTree, List.map_cons, rowId_arr,
        TopLevelPaper_arr_obj, rowHead_arr_obj, topHeaders_cons_card,
        Option.getD_some, List.length_cons, ih.1, ih.2]
      exact ⟨trivial, trivial⟩
    · simp [rowHead] at hr

/-- C3 (confirmed): element 0 of a loaded document contributes nothing
to the output — replacing it by anything else leaves the rendering
unchanged — and, for a document whose remaining rows are well-formed
subtrees, the output is a `ColumnList` with exactly one top-level
container per remaining row, in input order, each headed by its row's
head value. -/
theorem drop_date_label (a a' : JsTree) (rest : List JsTree) :
    (Schedule (.doc (a :: rest))).2 = (Schedule (.doc (a' :: rest))).2
      ∧ ((∀ r ∈ rest, (rowHead r).isSome) →
          ∃ es, (Schedule (.doc (a :: rest))).2 = Elem.columnList es
            ∧ es.length = rest.length
            ∧ topHeaders es = rest.map (fun r => (rowHead r).getD none)) := by
  constructor
  · simp [Schedule, loadedPath, setIds, setIdList]
  · intro hwf
    refine ⟨(setIdList [] 1 rest).map
      (fun row => Elem.keyed (rowId row) (TopLevelPaper row)), ?_, ?_, ?_⟩
    · simp [Schedule, loadedPath, setIds, setIdList]
    · exact (topHeaders_setIdList 1 rest hwf).2
    · exact (topHeaders_setIdList 1 rest hwf).1

/-- C3, witness: for the document `[A, B, C]` with `B`, `C` well-formed
subtrees, only `B` and `C` produce top-level containers, in that order,
and swapping `A` for a different date label leaves the output
unchanged. -/
theorem drop_date_label_witness :
    (Schedule (.doc [JsTree.obj { value := some "date" },
        JsTree.arr none [JsTree.obj { value := some "B" }],
        JsTree.arr none [JsTree.obj { value := some "C" }]])).2
      = (Schedule (.doc [JsTree.obj { value := some "other" },
          JsTree.arr none [JsTree.obj { value := some "B" }],
          JsTree.arr none [JsTree.obj { value := some "C" }]])).2
    ∧ ∃ es, (Schedule (.doc [JsTree.obj { value := some "date" },
          JsTree.arr none [JsTree.obj { value := some "B" }],
          JsTree.arr none [JsTree.obj { value := some "C" }]])).2
        = Elem.columnList es
      ∧ es.length = 2
      ∧ topHeaders es = [some "B", some "C"] := by
  have h := drop_date_label (JsTree.obj { value := some "date" })
    (JsTree.obj { value := some "other" })
    [JsTree.arr none [JsTree.obj { value := some "B" }],
     JsTree.arr none [JsTree.obj { value := some "C" }]]
  refine ⟨h.1, ?_⟩
  have h2 := h.2 (by
    intro r hr
    simp only [List.mem_cons, List.not_mem_nil, or_false] at hr
    rcases hr with rfl | rfl <;> simp)
  rcases h2 with ⟨es, h3, h4, h5⟩
  exact ⟨es, h3, by simpa using h4, by simpa [rowHead] using h5⟩

/-- A family of nested subtrees: `chain k` is a section chain whose
innermost head, labeled `"inner"`, sits at nesting distance `k` below
the root of `chain k`; all intermediate heads are labeled `"outer"`. -/
def chain : Nat → JsTree
  | 0 => .arr none [.obj { tag := some "t", value := some "inner" }]
  | k + 1 => .arr none [.obj { tag := some "t", value := some "outer" },
      chain k]

/-- `setIdTree` keeps the array shape of a chain. -/
theorem setIdTree_chain_arr (path : List Nat) (idx : Nat) (k : Nat) :
    ∃ j xs, setIdTree path idx (chain k) = .arr j xs := by
  cases k <;> exact ⟨_, _, rfl⟩

/-- The section renderer invoked at `level` on (the id-stamped form of)
`chain k` renders the innermost heading at level `level + k`: one
heading level per nesting level, starting at the invocation level. -/
theorem chain_heading :
    ∀ (k level : Nat) (path : List Nat) (idx : Nat),
      Elem.typography ("h" ++ toString (level + k)) (some "inner")
        ∈ collectE (Header (setIdTree path idx (chain k)) level)
  | 0, level, path, idx => by
    simp [chain, setIdTree, setIdList, Header_arr, jsTag, jsValue]
  | k + 1, level, path, idx => by
    have ih := chain_heading k (level + 1) (idx :: path) 1
    have harith : level + 1 + k = level + (k + 1) := by omega
    rw [harith] at ih
    obtain ⟨j, xs, hjx⟩ := setIdTree_chain_arr (idx :: path) 1 k
    rw [hjx] at ih
    simp only [chain, setIdTree, setIdList, Header_arr, jsTag, jsValue]
    rw [hjx]
    rw [childrenFromRest_cons_arr _ _ _ _ _ (by simp), childrenFromRest_nil]
    simp [ih]

/-- C2, counterexample: in the document whose single top-level section
contains a subtree nested two levels deep labeled `"inner"`, that
subtree's heading renders at depth 4, not at depth 5 as the claim
states. -/
theorem heading_depth_cx :
    Elem.typography "h5" (some "inner")
        ∉ collectE (Schedule (.doc [JsTree.obj { value := some "date" },
            chain 2])).2
      ∧ Elem.typography "h4" (some "inner")
        ∈ collectE (Schedule (.doc [JsTree.obj { value := some "date" },
            chain 2])).2 := by
  constructor <;>
    simp [Schedule, loadedPath, setIds, setIdList, setIdTree, pathId,
      Nat.pair, chain, TopLevelPaper, Header, childrenFromRest, Field,
      jsTag, jsValue, rowId, collectE, collectL] <;>
    decide

/-- C2 (amended): the heading level of a section is 2 plus its nesting
distance below the top-level section — depth 3 for a direct child,
increasing by exactly 1 per nesting level — so a subtree nested `k + 1`
levels deep under a top-level section renders its heading at depth
`3 + k`; in particular two levels deep renders at depth 4, not 5. -/
theorem heading_depth_amended (k : Nat) :
    Elem.typography ("h" ++ toString (3 + k)) (some "inner")
      ∈ collectE (Schedule (.doc [JsTree.obj { value := some "date" },
          chain (k + 1)])).2 := by
  have ih := chain_heading k 3 [1] 1
  obtain ⟨j, xs, hjx⟩ := setIdTree_chain_arr [1] 1 k
  rw [hjx] at ih
  simp only [Schedule, loadedPath, setIds, setIdList, setIdTree, chain,
    List.drop_succ_cons, List.drop_zero, List.map_cons, List.map_nil,
    rowId_arr, TopLevelPaper_arr_obj]
  rw [hjx]
  rw [childrenFromRest_cons_arr _ _ _ _ _ (by simp), childrenFromRest_nil]
  simp [ih]

end Diary
